import Mathlib

/-!
Verification development for the pseudo-3D racing engine
(track builder, perspective projector, scanline road renderer,
vehicle integrator).

The TypeScript sources are embedded shallowly:
* JavaScript numbers are modelled as exact rationals (`ℚ`); integer-valued
  quantities (piece lengths, sprite segment indices, loop counters) are
  modelled as `ℤ`/`ℕ`.
* `Math.floor` is `Int.floor`, `Math.round` is `⌊x + 1/2⌋` (JS rounds
  half toward +∞), the JS `%` operator on integers is truncated
  remainder (`Int.tmod`).
* Mutation of fields is modelled by functional update; `Math.random()`
  is modelled by an explicit stream of draws threaded through the
  procedural generator.
* `TrackPiece.id` / `PlacedSprite.id` are opaque random strings that the
  builder never reads and that identity comparisons never inspect, so
  they are omitted from the model.
-/

namespace Racer

/-- Segment colors (`COLORS.LIGHT` / `COLORS.DARK` in Track.ts). -/
structure SegmentColor where
  road : String
  grass : String
  rumble : String
  lane : String
deriving DecidableEq, Repr

def COLORS_LIGHT : SegmentColor :=
  { road := "#6b6b6b", grass := "#10aa10", rumble := "#ff0000", lane := "#cccccc" }

def COLORS_DARK : SegmentColor :=
  { road := "#696969", grass := "#009a00", rumble := "#ffffff", lane := "#696969" }

/-- Embeds `ROAD.SEGMENT_LENGTH` from config/constants.ts. -/
def SEGMENT_LENGTH : ℚ := 200

/-- Embeds `ROAD.RUMBLE_LENGTH` from config/constants.ts. -/
def RUMBLE_LENGTH : ℕ := 3

/-- A sprite attached to a segment (`Sprite` in types/game.ts);
the sprite type is its registry id string. -/
structure Sprite where
  type : String
  offset : ℚ
deriving DecidableEq, Repr

/-- World coordinates of a point (`WorldCoord`). -/
structure WorldCoord where
  x : ℚ
  y : ℚ
  z : ℚ
deriving DecidableEq, Repr

/-- Camera-space coordinates scratch fields. -/
structure CameraCoord where
  x : ℚ
  y : ℚ
  z : ℚ
deriving DecidableEq, Repr

/-- Screen-space scratch fields (`screen` sub-record). -/
structure ScreenPos where
  x : ℚ
  y : ℚ
  w : ℚ
deriving DecidableEq, Repr

/-- Embeds `ScreenCoord` from types/game.ts: a road-edge point with its
world position and per-frame projection scratch fields. -/
structure ScreenCoord where
  world : WorldCoord
  camera : CameraCoord
  screen : ScreenPos
  scale : ℚ
deriving DecidableEq, Repr

/-- Embeds `Segment` from types/game.ts. -/
structure Segment where
  index : ℕ
  p1 : ScreenCoord
  p2 : ScreenCoord
  curve : ℚ
  hill : ℚ
  color : SegmentColor
  sprites : List Sprite
deriving DecidableEq, Repr

/-- Track piece kinds (`TrackPieceType` in data/TrackData.ts). -/
inductive PieceType where
  | straight
  | curve
  | hill
deriving DecidableEq, Repr

/-- Embeds `TrackPiece` (data/TrackData.ts); the opaque random `id` is omitted.
`length` is a segment count (an integer in the interchange format). -/
structure TrackPiece where
  type : PieceType
  length : ℤ
  value : ℚ
deriving DecidableEq, Repr

/-- Embeds `PlacedSprite` (data/TrackData.ts); the opaque random `id` is omitted.
`segmentIndex` may be any integer, including out-of-range ones. -/
structure PlacedSprite where
  segmentIndex : ℤ
  type : String
  offset : ℚ
deriving DecidableEq, Repr

/-- Embeds `TrackData`, the interchange format between editor and builder. -/
structure TrackData where
  pieces : List TrackPiece
  sprites : List PlacedSprite
deriving DecidableEq, Repr

/-! ### Envelope emission (Track.addStraight / addCurve / addHill / addCurveWithHill)

Each `addSegment(curve, hill)` call appends one segment whose remaining
fields are derived from the current segment count alone, so piece
emission is modelled as producing the list of `(curve, hill)` pairs,
turned into full `Segment`s afterwards by position. -/

/-- One `addSegment` argument pair: per-segment curve and hill contribution. -/
structure SegSpec where
  curve : ℚ
  hill : ℚ
deriving DecidableEq, Repr

/-- Embeds `Track.addStraight(count)`: `count` segments with curve 0, hill 0. -/
def addStraight (count : ℤ) : List SegSpec :=
  (List.range count.toNat).map (fun _ => ⟨0, 0⟩)

/-- Embeds `Track.addCurve(count, curve)`: enter/hold/exit envelope on curvature. -/
def addCurve (count : ℤ) (curve : ℚ) : List SegSpec :=
  let enterCount : ℤ := Int.fdiv count 4
  let holdCount : ℤ := Int.fdiv count 2
  let exitCount : ℤ := count - enterCount - holdCount
  (List.range enterCount.toNat).map (fun i => ⟨curve * i / (enterCount : ℚ), 0⟩)
    ++ (List.range holdCount.toNat).map (fun _ => ⟨curve, 0⟩)
    ++ (List.range exitCount.toNat).map
        (fun i => ⟨curve * (1 - (i : ℚ) / (exitCount : ℚ)), 0⟩)

/-- Embeds `Track.addHill(count, height)`: enter/hold/exit envelope on elevation. -/
def addHill (count : ℤ) (height : ℚ) : List SegSpec :=
  let enterCount : ℤ := Int.fdiv count 4
  let holdCount : ℤ := Int.fdiv count 2
  let exitCount : ℤ := count - enterCount - holdCount
  (List.range enterCount.toNat).map (fun i => ⟨0, height * i / (enterCount : ℚ)⟩)
    ++ (List.range holdCount.toNat).map (fun _ => ⟨0, height⟩)
    ++ (List.range exitCount.toNat).map
        (fun i => ⟨0, height * (1 - (i : ℚ) / (exitCount : ℚ))⟩)

/-- Embeds `Track.addCurveWithHill(count, curve, height)`: simultaneous envelopes. -/
def addCurveWithHill (count : ℤ) (curve height : ℚ) : List SegSpec :=
  let enterCount : ℤ := Int.fdiv count 4
  let holdCount : ℤ := Int.fdiv count 2
  let exitCount : ℤ := count - enterCount - holdCount
  (List.range enterCount.toNat).map
      (fun i => ⟨curve * ((i : ℚ) / (enterCount : ℚ)), height * ((i : ℚ) / (enterCount : ℚ))⟩)
    ++ (List.range holdCount.toNat).map (fun _ => ⟨curve, height⟩)
    ++ (List.range exitCount.toNat).map
        (fun i => ⟨curve * (1 - (i : ℚ) / (exitCount : ℚ)), height * (1 - (i : ℚ) / (exitCount : ℚ))⟩)

/-- Segments emitted for one `TrackPiece` by `Track.buildFromData`'s switch. -/
def pieceSpecs (p : TrackPiece) : List SegSpec :=
  match p.type with
  | .straight => addStraight p.length
  | .curve => addCurve p.length p.value
  | .hill => addHill p.length p.value

/-- Embeds `Track.createScreenCoord(index)`. -/
def createScreenCoord (index : ℕ) : ScreenCoord :=
  { world := { x := 0, y := 0, z := (index : ℚ) * SEGMENT_LENGTH }
    camera := { x := 0, y := 0, z := 0 }
    screen := { x := 0, y := 0, w := 0 }
    scale := 0 }

/-- The segment built by `Track.addSegment` when the store already holds
`n` segments and `addSegment(curve, hill)` is called. -/
def mkSegment (n : ℕ) (s : SegSpec) : Segment :=
  { index := n
    p1 := createScreenCoord n
    p2 := createScreenCoord (n + 1)
    curve := s.curve
    hill := s.hill
    color := if (n / RUMBLE_LENGTH) % 2 = 0 then COLORS_LIGHT else COLORS_DARK
    sprites := [] }

/-- Turn an emission sequence into the segment store: the `k`-th emitted
pair becomes the segment with index `k`. -/
def mkSegments (specs : List SegSpec) : List Segment :=
  specs.enum.map (fun ns => mkSegment ns.1 ns.2)

/-! ### Track aggregate and build operations -/

/-- The `Track` aggregate.  `segmentLength` and `rumbleLength` are
initialized from config constants and never reassigned. -/
structure Track where
  segments : List Segment
  segmentLength : ℚ := SEGMENT_LENGTH
  rumbleLength : ℕ := RUMBLE_LENGTH
  trackLength : ℚ
  currentPieces : List TrackPiece
deriving DecidableEq, Repr

/-- Embeds `Track.calculateYPositions`: running cumulative elevation sum —
`p1.world.y := y; y += hill; p2.world.y := y` for each segment in order. -/
def calcYFrom (y : ℚ) : List Segment → List Segment
  | [] => []
  | s :: rest =>
      { s with
        p1 := { s.p1 with world := { s.p1.world with y := y } }
        p2 := { s.p2 with world := { s.p2.world with y := y + s.hill } } }
        :: calcYFrom (y + s.hill) rest

/-- The elevation pass starts from `y = 0`. -/
def calculateYPositions (ss : List Segment) : List Segment :=
  calcYFrom 0 ss

/-- Replace the element at position `i` by `f` applied to it
(out-of-range `i` leaves the list unchanged). -/
def modifyAt (f : Segment → Segment) : ℕ → List Segment → List Segment
  | _, [] => []
  | 0, a :: l => f a :: l
  | n + 1, a :: l => a :: modifyAt f n l

/-- The in-bounds-guarded sprite attachment from the tail of
`Track.buildFromData`: `if 0 <= segmentIndex < segments.length`
push `{type, offset}` onto that segment's sprite list, else skip. -/
def pushSprite (ss : List Segment) (s : PlacedSprite) : List Segment :=
  if 0 ≤ s.segmentIndex ∧ s.segmentIndex < (ss.length : ℤ) then
    modifyAt (fun seg => { seg with sprites := seg.sprites ++ [⟨s.type, s.offset⟩] })
      s.segmentIndex.toNat ss
  else ss

/-- The per-piece emission of `Track.buildFromData`, with its
empty-track fallback: if no piece produced a segment, force
`addStraight(100)`. -/
def buildSpecs (data : TrackData) : List SegSpec :=
  let specs := data.pieces.flatMap pieceSpecs
  if specs.length = 0 then addStraight 100 else specs

/-- The segment store of `Track.buildFromData` before sprite
attachment: emitted segments with the elevation pass applied. -/
def buildSkeleton (data : TrackData) : List Segment :=
  calculateYPositions (mkSegments (buildSpecs data))

/-- Embeds `Track.buildFromData(data)`:
emit segments per piece; if none were produced force `addStraight(100)`;
set `trackLength = segments.length * segmentLength`; run the elevation
pass; then attach each placed sprite whose index is in bounds. -/
def buildFromData (data : TrackData) : Track :=
  { segments := data.sprites.foldl pushSprite (buildSkeleton data)
    trackLength := ((buildSkeleton data).length : ℚ) * SEGMENT_LENGTH
    currentPieces := data.pieces }

/-- The nested loops of `Track.getTrackData`: for each segment (at
running index `i`), for each of its sprites in order, emit a
`PlacedSprite` tagged with that segment index. -/
def exportSprites : ℕ → List Segment → List PlacedSprite
  | _, [] => []
  | i, seg :: rest =>
      seg.sprites.map
          (fun sp => { segmentIndex := (i : ℤ), type := sp.type, offset := sp.offset })
        ++ exportSprites (i + 1) rest

/-- Embeds `Track.getTrackData()`: export the retained piece list plus a sprite
list flattened by scanning segments in order (fresh random ids omitted). -/
def getTrackData (t : Track) : TrackData :=
  { pieces := t.currentPieces
    sprites := exportSprites 0 t.segments }

/-! ### Segment lookup (Track.getSegment) -/

/-- Truncation toward zero, as JS number-to-integer conversion in `%`. -/
def jsTrunc (q : ℚ) : ℤ := if 0 ≤ q then ⌊q⌋ else ⌈q⌉

/-- The JS `%` operator on numbers: remainder with the sign of the
dividend, `a - b * trunc(a / b)`. -/
def jsModQ (a b : ℚ) : ℚ := a - b * (jsTrunc (a / b) : ℚ)

/-- The raw index `Math.floor(z / segmentLength) % segments.length` of
`Track.getSegment` (JS `%` on integers is the truncated remainder),
shifted up by `segments.length` when negative. -/
def getSegmentIndex (t : Track) (z : ℚ) : ℤ :=
  let index := Int.tmod ⌊z / t.segmentLength⌋ (t.segments.length : ℤ)
  if index < 0 then index + (t.segments.length : ℤ) else index

/-- Fallback segment used only to make list lookup total in the model;
on a non-empty store `getSegmentIndex` is always in bounds (proved
below), so the fallback is never consulted there.  On an empty store the
JS original would yield `undefined`. -/
def defaultSegment : Segment := mkSegment 0 ⟨0, 0⟩

/-- Embeds `Track.getSegment(z)`. -/
def getSegment (t : Track) (z : ℚ) : Segment :=
  t.segments.getD (getSegmentIndex t z).toNat defaultSegment

/-! ### Procedural generation (Track.buildRandomTrack, Track.addSprites)

`Math.random()` is modelled as a stream of rational draws consumed in
program order; the JS contract puts each draw in `[0, 1)`, but none of
the properties proved below need that bound. -/

/-- A deterministic stand-in for `Math.random`: a stream of draws and a
cursor. -/
structure Rng where
  f : ℕ → ℚ
  k : ℕ

/-- Consume one draw. -/
def Rng.next (r : Rng) : ℚ × Rng := (r.f r.k, { r with k := r.k + 1 })

/-- Sprite id lists from SpriteRegistry.ts, in registry insertion order. -/
def TREE_SPRITES : List String :=
  ["palm_tree", "tree1", "tree2", "dead_tree1", "dead_tree2"]

def VEGETATION_SPRITES : List String := ["bush1", "bush2", "cactus", "stump"]

def OBJECT_SPRITES : List String := ["boulder1", "boulder2", "boulder3", "column"]

def BILLBOARD_SPRITES : List String :=
  ["billboard01", "billboard02", "billboard03", "billboard04", "billboard05",
   "billboard06", "billboard07", "billboard08", "billboard09"]

/-- Embeds `OBJECT_SPRITES.filter(id => id.startsWith("boulder"))` from
`Track.addSprites`. -/
def ROCK_SPRITES : List String :=
  OBJECT_SPRITES.filter (fun id => id.startsWith "boulder")

/-- Embeds `list[Math.floor(Math.random() * list.length)]`; the empty-string
fallback is unreachable for draws in `[0, 1)` on a non-empty list. -/
def pickSprite (l : List String) (u : ℚ) : String :=
  l.getD (⌊u * (l.length : ℚ)⌋).toNat ""

/-- The sprites `Track.addSprites` pushes onto segment `i`, with the
random draws consumed in source order (type then offset per block; the
billboard block draws type, side, then offset). -/
def segDecor (i : ℕ) (r0 : Rng) : List Sprite × Rng :=
  let (ds1, r1) :=
    if i % 12 = 0 then
      let (u, ra) := r0.next
      let (v, rb) := ra.next
      ([Sprite.mk (pickSprite TREE_SPRITES u) (-(13/10 + v * (1/2)))], rb)
    else ([], r0)
  let (ds2, r2) :=
    if i % 15 = 0 then
      let (u, ra) := r1.next
      let (v, rb) := ra.next
      ([Sprite.mk (pickSprite TREE_SPRITES u) (13/10 + v * (1/2))], rb)
    else ([], r1)
  let (ds3, r3) :=
    if i % 20 = 0 then
      let (u, ra) := r2.next
      let (v, rb) := ra.next
      ([Sprite.mk (pickSprite VEGETATION_SPRITES u) (-(23/20 + v * (1/5)))], rb)
    else ([], r2)
  let (ds4, r4) :=
    if i % 25 = 0 then
      let (u, ra) := r3.next
      let (v, rb) := ra.next
      ([Sprite.mk (pickSprite VEGETATION_SPRITES u) (23/20 + v * (1/5))], rb)
    else ([], r3)
  let (ds5, r5) :=
    if i % 30 = 0 then
      ([Sprite.mk "column" (-(11/10)), Sprite.mk "column" (11/10)], r4)
    else ([], r4)
  let (ds6, r6) :=
    if i % 40 = 0 ∧ 0 < ROCK_SPRITES.length then
      let (u, ra) := r5.next
      let (v, rb) := ra.next
      ([Sprite.mk (pickSprite ROCK_SPRITES u) (-(3/2 + v * (3/10)))], rb)
    else ([], r5)
  let (ds7, r7) :=
    if i % 80 = 0 ∧ 0 < BILLBOARD_SPRITES.length then
      let (u, ra) := r6.next
      let (s, rb) := ra.next
      let (v, rc) := rb.next
      let side : ℚ := if 1/2 < s then 1 else -1
      ([Sprite.mk (pickSprite BILLBOARD_SPRITES u) (side * (7/5 + v * (3/10)))], rc)
    else ([], r6)
  (ds1 ++ ds2 ++ ds3 ++ ds4 ++ ds5 ++ ds6 ++ ds7, r7)

/-- Walk the segment store in order, decorating segment `i`
(`Track.addSprites` main loop; the in-place pushes on one segment are
gathered into a single append). -/
def addSpritesGo : ℕ → List Segment → Rng → List Segment × Rng
  | _, [], r => ([], r)
  | i, s :: rest, r =>
      let (ds, r') := segDecor i r
      let (rest', r'') := addSpritesGo (i + 1) rest r'
      ({ s with sprites := s.sprites ++ ds } :: rest', r'')

/-- Embeds `Track.addSprites()`. -/
def addSprites (ss : List Segment) (r : Rng) : List Segment × Rng :=
  addSpritesGo 0 ss r

/-- Intermediate state of the `buildRandomTrack` section loop. -/
structure BuildState where
  pieces : List TrackPiece
  specs : List SegSpec
  rng : Rng

/-- One iteration of the `buildRandomTrack` section loop, with its
weighted branch on `sectionType` and the draws in source order. -/
def buildSection (st : BuildState) : BuildState :=
  let (sectionType, r) := st.rng.next
  if sectionType < 3/10 then
    let (u, r1) := r.next
    let length : ℤ := 30 + ⌊u * 50⌋
    { pieces := st.pieces ++ [⟨.straight, length, 0⟩]
      specs := st.specs ++ addStraight length, rng := r1 }
  else if sectionType < 6/10 then
    let (u, r1) := r.next
    let length : ℤ := 30 + ⌊u * 50⌋
    let (v, r2) := r1.next
    let intensity := v * 6 - 3
    { pieces := st.pieces ++ [⟨.curve, length, intensity⟩]
      specs := st.specs ++ addCurve length intensity, rng := r2 }
  else if sectionType < 17/20 then
    let (u, r1) := r.next
    let length : ℤ := 40 + ⌊u * 80⌋
    let (v, r2) := r1.next
    let height := v * 300 - 150
    { pieces := st.pieces ++ [⟨.hill, length, height⟩]
      specs := st.specs ++ addHill length height, rng := r2 }
  else
    let (u, r1) := r.next
    let length : ℤ := 40 + ⌊u * 60⌋
    let (v, r2) := r1.next
    let curveIntensity := v * 4 - 2
    let (w, r3) := r2.next
    let hillHeight := w * 200 - 100
    { pieces := st.pieces
        ++ [⟨.curve, Int.fdiv length 2, curveIntensity⟩,
            ⟨.hill, Int.fdiv length 2, hillHeight⟩]
      specs := st.specs ++ addCurveWithHill length curveIntensity hillHeight
      rng := r3 }

/-- Embeds `Track.buildRandomTrack()`: random straight bracket, weighted random
sections, then `trackLength`, the elevation pass, and sprite decoration. -/
def buildRandomTrack (r0 : Rng) : Track :=
  let (u1, r1) := r0.next
  let numSections : ℤ := 12 + ⌊u1 * (20 - 12)⌋
  let (u2, r2) := r1.next
  let startLength : ℤ := 30 + ⌊u2 * 30⌋
  let st0 : BuildState :=
    { pieces := [⟨.straight, startLength, 0⟩]
      specs := addStraight startLength, rng := r2 }
  let st := (List.range numSections.toNat).foldl (fun s _ => buildSection s) st0
  let (u3, r3) := st.rng.next
  let endLength : ℤ := 40 + ⌊u3 * 40⌋
  let pieces := st.pieces ++ [⟨.straight, endLength, 0⟩]
  let skel := calculateYPositions (mkSegments (st.specs ++ addStraight endLength))
  { segments := (addSprites skel r3).1
    trackLength := (skel.length : ℚ) * SEGMENT_LENGTH
    currentPieces := pieces }

/-! ### Perspective projection and the road render pass (WebGLRenderer) -/

/-- The renderer fields read by `project` and the road loop, initialized
from `RENDER`/`CAMERA` config constants. -/
structure RendererCfg where
  width : ℚ := 640
  height : ℚ := 480
  roadWidth : ℚ := 2000
  cameraHeight : ℚ := 1000
  cameraDepth : ℚ := 21 / 25
  drawDistance : ℕ := 350
deriving DecidableEq, Repr

/-- Embeds `Math.round`: round half toward `+∞`. -/
def jsRound (q : ℚ) : ℤ := ⌊q + 1 / 2⌋

/-- Embeds `WebGLRenderer.project(p, cameraX, cameraY, cameraZ)`: camera-space
translation, then either the behind-camera guard (`camera.z <= 0`:
`scale = 0`, `screen.y = height`, `screen.x = 0`, `screen.w = 0`, no
division) or the perspective divide and rounded screen mapping. -/
def project (cfg : RendererCfg) (p : ScreenCoord)
    (cameraX cameraY cameraZ : ℚ) : ScreenCoord :=
  let cam : CameraCoord :=
    { x := p.world.x - cameraX, y := p.world.y - cameraY, z := p.world.z - cameraZ }
  if cam.z ≤ 0 then
    { p with camera := cam, scale := 0
             screen := { x := 0, y := cfg.height, w := 0 } }
  else
    let scale := cfg.cameraDepth / cam.z
    { p with camera := cam, scale := scale
             screen :=
               { x := (jsRound (cfg.width / 2 + scale * cam.x * cfg.width / 2) : ℚ)
                 y := (jsRound (cfg.height / 2 - scale * cam.y * cfg.height / 2) : ℚ)
                 w := (jsRound (scale * cfg.roadWidth * cfg.width / 2) : ℚ) } }

/-- The arguments of one call to `WebGLRenderer.render`. -/
structure RenderPass where
  cfg : RendererCfg
  track : Track
  position : ℚ
  playerX : ℚ
  playerY : Option ℚ

/-- Embeds `basePercent = (position % segmentLength) / segmentLength`. -/
def basePercent (pass : RenderPass) : ℚ :=
  jsModQ pass.position pass.track.segmentLength / pass.track.segmentLength

/-- Embeds `camPlayerY`: the passed `playerY`, or the base-segment road height
interpolation when the argument was omitted. -/
def camPlayerY (pass : RenderPass) : ℚ :=
  match pass.playerY with
  | some y => y
  | none =>
      let base := getSegment pass.track pass.position
      base.p1.world.y + (base.p2.world.y - base.p1.world.y) * basePercent pass

/-- The running accumulators of the road loop: screen-space lateral
shift `x`, its derivative `dx`, and the occlusion horizon `maxy`. -/
structure RenderState where
  x : ℚ
  dx : ℚ
  maxy : ℚ
deriving DecidableEq, Repr

/-- Loop entry state: `maxy = this.height`, `x = 0`,
`dx = -(baseSegment.curve * basePercent)`. -/
def renderInit (pass : RenderPass) : RenderState :=
  { x := 0
    dx := -((getSegment pass.track pass.position).curve * basePercent pass)
    maxy := pass.cfg.height }

/-- The segment visited by loop iteration `n`:
`track.segments[(baseSegment.index + n) % track.segments.length]`. -/
def segAt (pass : RenderPass) (n : ℕ) : Segment :=
  pass.track.segments.getD
    (((getSegment pass.track pass.position).index + n) % pass.track.segments.length)
    defaultSegment

/-- Whether iteration `n` reads a wrapped-around segment
(`segmentIndex < baseSegment.index`), which shifts the camera Z. -/
def loopedAt (pass : RenderPass) (n : ℕ) : Prop :=
  ((getSegment pass.track pass.position).index + n) % pass.track.segments.length
    < (getSegment pass.track pass.position).index

instance (pass : RenderPass) (n : ℕ) : Decidable (loopedAt pass n) := by
  unfold loopedAt; infer_instance

/-- The near-edge projection computed at iteration `n` from state `st`. -/
def p1At (pass : RenderPass) (n : ℕ) (st : RenderState) : ScreenCoord :=
  project pass.cfg (segAt pass n).p1
    (pass.playerX * pass.cfg.roadWidth - st.x)
    (camPlayerY pass + pass.cfg.cameraHeight)
    (pass.position - (if loopedAt pass n then pass.track.trackLength else 0))

/-- The far-edge projection computed at iteration `n` from state `st`. -/
def p2At (pass : RenderPass) (n : ℕ) (st : RenderState) : ScreenCoord :=
  project pass.cfg (segAt pass n).p2
    (pass.playerX * pass.cfg.roadWidth - st.x - st.dx)
    (camPlayerY pass + pass.cfg.cameraHeight)
    (pass.position - (if loopedAt pass n then pass.track.trackLength else 0))

/-- Iteration `n` draws its segment exactly when none of the three skip
conditions of the source fire: near point in front of the camera plane,
far screen Y strictly above near screen Y, far screen Y strictly above
the current horizon. -/
def drawsAt (pass : RenderPass) (n : ℕ) (st : RenderState) : Prop :=
  pass.cfg.cameraDepth < (p1At pass n st).camera.z
    ∧ (p2At pass n st).screen.y < (p1At pass n st).screen.y
    ∧ (p2At pass n st).screen.y < st.maxy

instance (pass : RenderPass) (n : ℕ) (st : RenderState) :
    Decidable (drawsAt pass n st) := by
  unfold drawsAt; infer_instance

/-- One iteration of the road loop: project both edges, advance the
curvature accumulators, and tighten the horizon to `p1.screen.y` when
the segment is drawn. -/
def renderStep (pass : RenderPass) (n : ℕ) (st : RenderState) : RenderState :=
  { x := st.x + st.dx
    dx := st.dx + (segAt pass n).curve
    maxy := if drawsAt pass n st then (p1At pass n st).screen.y else st.maxy }

/-- Loop state before iteration `n` (iterations `0, …, n-1` applied). -/
def renderStateAt (pass : RenderPass) : ℕ → RenderState
  | 0 => renderInit pass
  | n + 1 => renderStep pass n (renderStateAt pass n)

/-- The occlusion horizon value after `n` loop iterations. -/
def maxyAfter (pass : RenderPass) (n : ℕ) : ℚ := (renderStateAt pass n).maxy

/-! ### Vehicle integrator (Game.update) -/

/-- The four input flags sampled each tick. -/
structure InputState where
  left : Bool
  right : Bool
  up : Bool
  down : Bool
deriving DecidableEq, Repr

/-- Embeds `Player` from types/game.ts. -/
structure Player where
  x : ℚ
  speed : ℚ
  maxSpeed : ℚ
  accel : ℚ
  decel : ℚ
  offRoadDecel : ℚ
  offRoadMaxSpeed : ℚ
deriving DecidableEq, Repr

/-- The `Game` fields read and written by `Game.update`; tunables
default to the constructor values (the renderer constants are the ones
`update` reads for the look-ahead distance). -/
structure GameState where
  track : Track
  position : ℚ
  player : Player
  playerY : ℚ
  centrifugalForce : ℚ := 3
  steeringRate : ℚ := 3
  steeringSpeedScale : ℚ := 1 / 2
  cameraHeight : ℚ := 1000
  cameraDepth : ℚ := 21 / 25
deriving DecidableEq, Repr

/-- Embeds `Math.sign`. -/
def jsSign (q : ℚ) : ℚ := if 0 < q then 1 else if q < 0 then -1 else 0

/-- The two position-wrapping `while` loops at the end of `Game.update`;
for `trackLength > 0` they terminate with `position` reduced into
`[0, trackLength)`, which is floor-modulo; for `trackLength ≤ 0` the JS
loops would not terminate, so the model returns the input unchanged. -/
def wrapPosition (p L : ℚ) : ℚ := if 0 < L then p - L * (⌊p / L⌋ : ℚ) else p

/-- Embeds `speedPercent = speed / maxSpeed`, computed once at tick entry. -/
def speedPercentOf (g : GameState) : ℚ := g.player.speed / g.player.maxSpeed

/-- The lateral position after the steering block (applied only while
`speed > 0`; left then right). -/
def postSteerX (g : GameState) (inp : InputState) (dt : ℚ) : ℚ :=
  let speedPercent := speedPercentOf g
  let steerRate :=
    dt * g.steeringRate * speedPercent * (1 - speedPercent * g.steeringSpeedScale)
  let x0 :=
    if 0 < g.player.speed ∧ inp.left = true then g.player.x - steerRate else g.player.x
  if 0 < g.player.speed ∧ inp.right = true then x0 + steerRate else x0

/-- Embeds `offRoadAmount = max(0, |x| - 1.0)` from the post-steering `x`. -/
def offRoadAmountOf (g : GameState) (inp : InputState) (dt : ℚ) : ℚ :=
  max 0 (|postSteerX g inp dt| - 1)

/-- Embeds `offRoadFactor = min(offRoadAmount, 1.0)`. -/
def offRoadFactorOf (g : GameState) (inp : InputState) (dt : ℚ) : ℚ :=
  min (offRoadAmountOf g inp dt) 1

/-- The effective maximum speed of this tick: `maxSpeed` interpolated
down toward `offRoadMaxSpeed` by `offRoadFactor` when off-road. -/
def effMaxSpeed (g : GameState) (inp : InputState) (dt : ℚ) : ℚ :=
  if 0 < offRoadAmountOf g inp dt then
    g.player.maxSpeed
      - (g.player.maxSpeed - g.player.offRoadMaxSpeed) * offRoadFactorOf g inp dt
  else g.player.maxSpeed

/-- The speed after throttle/brake/decel, turning bleed, the extra
off-road decel, and the final clamp to `[0, effective max]`. -/
def updatedSpeed (g : GameState) (inp : InputState) (dt : ℚ) : ℚ :=
  let p := g.player
  let speedPercent := speedPercentOf g
  let isOffRoad := 0 < offRoadAmountOf g inp dt
  let offRoadFactor := offRoadFactorOf g inp dt
  let maxSpeed := effMaxSpeed g inp dt
  let speed1 :=
    if inp.up then
      let accelReduction := if isOffRoad then 1 - offRoadFactor * (7 / 10) else 1
      p.speed + p.accel * dt * 100 * accelReduction
    else if inp.down then p.speed - p.accel * dt * 100 * 2
    else p.speed - p.decel * dt * 100
  let speed2 :=
    if inp.left || inp.right then speed1 - p.decel * dt * 100 * speedPercent
    else speed1
  let speed3 :=
    if isOffRoad ∧ maxSpeed < speed2 then
      speed2 - p.offRoadDecel * dt * 100 * offRoadFactor
    else speed2
  max 0 (min speed3 maxSpeed)

/-- The lateral position after this tick: post-steering `x`, minus the
clamped-curvature centrifugal displacement, clamped to the track bounds
`[-2, 2]`. -/
def updatedX (g : GameState) (inp : InputState) (dt : ℚ) : ℚ :=
  let x1 := postSteerX g inp dt
  let speedPercent := speedPercentOf g
  let segment := getSegment g.track g.position
  let nextSegment := getSegment g.track (g.position + g.track.segmentLength)
  let segmentPercent := jsModQ g.position g.track.segmentLength / g.track.segmentLength
  let rawCurveValue := segment.curve + (nextSegment.curve - segment.curve) * segmentPercent
  let curveValue := jsSign rawCurveValue * min |rawCurveValue| 5
  let centrifugal := curveValue * speedPercent * speedPercent * dt * g.centrifugalForce
  max (-2) (min 2 (x1 - centrifugal))

/-- Embeds `Game.update(dt)`. -/
def update (g : GameState) (inp : InputState) (dt : ℚ) : GameState :=
  let speed4 := updatedSpeed g inp dt
  let position1 := g.position + speed4 * dt * g.track.segmentLength / 10
  let playerZ := g.cameraHeight * g.cameraDepth
  let playerSegment := getSegment g.track (position1 + playerZ)
  let playerPercent :=
    jsModQ (position1 + playerZ) g.track.segmentLength / g.track.segmentLength
  let roadY :=
    playerSegment.p1.world.y
      + (playerSegment.p2.world.y - playerSegment.p1.world.y) * playerPercent
  { g with
    position := wrapPosition position1 g.track.trackLength
    playerY := roadY
    player := { g.player with x := updatedX g inp dt, speed := speed4 } }

/-- A concrete six-segment flat track, used to instantiate universally
quantified theorems on explicit inputs. -/
def trackStraight6 : Track :=
  buildFromData { pieces := [⟨.straight, 6, 0⟩], sprites := [] }

/-- A concrete render pass: the flat six-segment track viewed from the
start line with the default renderer configuration (the camera 1000
units above a flat road). -/
def passFlat : RenderPass :=
  { cfg := {}, track := trackStraight6, position := 0, playerX := 0, playerY := some 0 }

/-- A concrete render pass looking up from below the road
(`playerY = -2000`), over a six-iteration road loop. -/
def passDown : RenderPass :=
  { cfg := { drawDistance := 6 }, track := trackStraight6, position := 0,
    playerX := 0, playerY := some (-2000) }

/-! ## Helper lemmas -/

theorem modifyAt_length (f : Segment → Segment) :
    ∀ (i : ℕ) (l : List Segment), (modifyAt f i l).length = l.length := by
  intro i l
  induction l generalizing i with
  | nil => simp [modifyAt]
  | cons a l ih =>
      cases i with
      | zero => simp [modifyAt]
      | succ n => simp [modifyAt, ih]

theorem modifyAt_getElem?_ne (f : Segment → Segment) :
    ∀ (i j : ℕ) (l : List Segment), i ≠ j → (modifyAt f i l)[j]? = l[j]? := by
  intro i j l
  induction l generalizing i j with
  | nil => intro _; simp [modifyAt]
  | cons a l ih =>
      intro hij
      cases i with
      | zero =>
          cases j with
          | zero => exact absurd rfl hij
          | succ m => simp [modifyAt]
      | succ n =>
          cases j with
          | zero => simp [modifyAt]
          | succ m =>
              simp only [modifyAt, List.getElem?_cons_succ]
              exact ih n m (by omega)

theorem modifyAt_getElem?_self (f : Segment → Segment) :
    ∀ (j : ℕ) (l : List Segment), (modifyAt f j l)[j]? = (l[j]?).map f := by
  intro j l
  induction l generalizing j with
  | nil => simp [modifyAt]
  | cons a l ih =>
      cases j with
      | zero => simp [modifyAt]
      | succ m => simp [modifyAt, ih]

theorem pushSprite_length (ss : List Segment) (s : PlacedSprite) :
    (pushSprite ss s).length = ss.length := by
  unfold pushSprite
  split
  · exact modifyAt_length _ _ _
  · rfl

theorem foldl_pushSprite_length (l : List PlacedSprite) :
    ∀ ss : List Segment, (l.foldl pushSprite ss).length = ss.length := by
  induction l with
  | nil => intro ss; rfl
  | cons s l ih =>
      intro ss
      simp only [List.foldl_cons]
      rw [ih, pushSprite_length]

/-- The sprites the attachment loop delivers to segment `j`: the data's
sprites placed at index `j`, stripped to `{type, offset}`, in order. -/
def attachedTo (j : ℕ) (l : List PlacedSprite) : List Sprite :=
  (l.filter (fun s => decide (s.segmentIndex = (j : ℤ)))).map
    (fun s => ⟨s.type, s.offset⟩)

theorem attachedTo_nil (j : ℕ) : attachedTo j [] = [] := rfl

theorem attachedTo_cons (j : ℕ) (s : PlacedSprite) (l : List PlacedSprite) :
    attachedTo j (s :: l)
      = if s.segmentIndex = (j : ℤ) then
          Sprite.mk s.type s.offset :: attachedTo j l
        else attachedTo j l := by
  unfold attachedTo
  by_cases h : s.segmentIndex = (j : ℤ) <;> simp [List.filter_cons, h]

/-- Pointwise effect of the sprite-attachment fold: segment `j` receives
exactly the sprites placed at index `j`, appended in data order; all
other fields are untouched. -/
theorem foldl_pushSprite_getElem? (l : List PlacedSprite) :
    ∀ (ss : List Segment) (j : ℕ),
      (l.foldl pushSprite ss)[j]?
        = (ss[j]?).map
            (fun seg => { seg with sprites := seg.sprites ++ attachedTo j l }) := by
  induction l with
  | nil =>
      intro ss j
      simp [attachedTo_nil]
  | cons s l ih =>
      intro ss j
      simp only [List.foldl_cons]
      rw [ih (pushSprite ss s) j, attachedTo_cons]
      by_cases hj : s.segmentIndex = (j : ℤ)
      · by_cases hlen : j < ss.length
        · have hguard : 0 ≤ s.segmentIndex ∧ s.segmentIndex < (ss.length : ℤ) := by
            constructor
            · rw [hj]; exact Int.ofNat_nonneg j
            · rw [hj]; exact_mod_cast hlen
          have htn : s.segmentIndex.toNat = j := by rw [hj]; exact Int.toNat_natCast j
          rw [pushSprite, if_pos hguard, htn, modifyAt_getElem?_self]
          rw [List.getElem?_eq_getElem hlen]
          simp [hj, List.append_assoc]
        · have hnone : ss[j]? = none := List.getElem?_eq_none (by omega)
          have hguard : ¬(0 ≤ s.segmentIndex ∧ s.segmentIndex < (ss.length : ℤ)) := by
            rw [hj]
            intro ⟨_, hlt⟩
            exact hlen (by exact_mod_cast hlt)
          rw [pushSprite, if_neg hguard, hnone]
          simp
      · rw [if_neg hj]
        congr 1
        unfold pushSprite
        split
        · next hguard =>
            apply modifyAt_getElem?_ne
            intro hEq
            apply hj
            rw [← hEq]
            exact (Int.toNat_of_nonneg hguard.1).symm
        · rfl

/-- Embeds `calculateYPositions` (from any running total) only rewrites the two
world-Y fields: sprites are untouched. -/
theorem calcYFrom_sprites :
    ∀ (y : ℚ) (ss : List Segment) (j : ℕ),
      ((calcYFrom y ss)[j]?).map Segment.sprites = (ss[j]?).map Segment.sprites := by
  intro y ss
  induction ss generalizing y with
  | nil => intro j; simp [calcYFrom]
  | cons s rest ih =>
      intro j
      cases j with
      | zero => simp [calcYFrom]
      | succ m => simp [calcYFrom, ih]

/-- Every segment freshly emitted by the builder has an empty sprite
list before attachment. -/
theorem mkSegments_sprites (specs : List SegSpec) (j : ℕ) (h : j < specs.length) :
    ((mkSegments specs)[j]?).map Segment.sprites = some [] := by
  unfold mkSegments
  rw [List.getElem?_map, List.getElem?_enum, List.getElem?_eq_getElem h]
  rfl

theorem mkSegments_length (specs : List SegSpec) :
    (mkSegments specs).length = specs.length := by
  simp [mkSegments]

theorem calcYFrom_length :
    ∀ (y : ℚ) (ss : List Segment), (calcYFrom y ss).length = ss.length := by
  intro y ss
  induction ss generalizing y with
  | nil => rfl
  | cons s rest ih => simp [calcYFrom, ih]

theorem attachedTo_map_export (i j : ℕ) (sp : List Sprite) :
    attachedTo j
        (sp.map (fun s => PlacedSprite.mk (i : ℤ) s.type s.offset))
      = if i = j then sp else [] := by
  induction sp with
  | nil => by_cases h : i = j <;> simp [attachedTo_nil, h]
  | cons s rest ih =>
      by_cases h : i = j
      · subst h
        simpa [attachedTo_cons] using ih
      · have : ¬((i : ℤ) = (j : ℤ)) := by exact_mod_cast h
        simpa [attachedTo_cons, this, h] using ih

theorem attachedTo_append (j : ℕ) (l₁ l₂ : List PlacedSprite) :
    attachedTo j (l₁ ++ l₂) = attachedTo j l₁ ++ attachedTo j l₂ := by
  unfold attachedTo
  rw [List.filter_append, List.map_append]

/-- Exported sprites of segments at running indices `≥ k` deliver
nothing to a segment index `< k`. -/
theorem attachedTo_exportSprites_lt :
    ∀ (ss : List Segment) (k j : ℕ), j < k → attachedTo j (exportSprites k ss) = [] := by
  intro ss
  induction ss with
  | nil => intro k j _; simp [exportSprites, attachedTo_nil]
  | cons s rest ih =>
      intro k j hjk
      rw [exportSprites, attachedTo_append, attachedTo_map_export,
        if_neg (by omega), ih (k + 1) j (by omega)]
      rfl

/-- What the export flattening delivers back to segment `j`: exactly that
segment's own sprite list. -/
theorem attachedTo_exportSprites :
    ∀ (ss : List Segment) (k j : ℕ),
      attachedTo (k + j) (exportSprites k ss)
        = ((ss[j]?).map Segment.sprites).getD [] := by
  intro ss
  induction ss with
  | nil => intro k j; simp [exportSprites, attachedTo_nil]
  | cons s rest ih =>
      intro k j
      rw [exportSprites, attachedTo_append, attachedTo_map_export]
      cases j with
      | zero =>
          rw [if_pos (by omega), attachedTo_exportSprites_lt rest (k + 1) (k + 0) (by omega)]
          simp
      | succ m =>
          rw [if_neg (by omega)]
          have : k + (m + 1) = (k + 1) + m := by omega
          rw [this, ih (k + 1) m]
          simp

/-- Each skeleton slot holds a segment whose sprite list is still empty. -/
theorem buildSkeleton_sprites (d : TrackData) (j : ℕ)
    (h : j < (buildSkeleton d).length) :
    ∃ seg, (buildSkeleton d)[j]? = some seg ∧ seg.sprites = [] := by
  have hlen : j < (buildSpecs d).length := by
    have h1 := calcYFrom_length 0 (mkSegments (buildSpecs d))
    have h2 := mkSegments_length (buildSpecs d)
    unfold buildSkeleton calculateYPositions at h
    omega
  have hspr :
      ((buildSkeleton d)[j]?).map Segment.sprites = some [] := by
    unfold buildSkeleton calculateYPositions
    rw [calcYFrom_sprites]
    exact mkSegments_sprites _ j hlen
  cases hopt : (buildSkeleton d)[j]? with
  | none => rw [hopt] at hspr; simp at hspr
  | some seg =>
      rw [hopt] at hspr
      exact ⟨seg, rfl, by simpa using hspr⟩

theorem buildFromData_segments_getElem? (d : TrackData) (j : ℕ) :
    (buildFromData d).segments[j]?
      = ((buildSkeleton d)[j]?).map
          (fun seg => { seg with sprites := seg.sprites ++ attachedTo j d.sprites }) := by
  simpa [buildFromData] using
    foldl_pushSprite_getElem? d.sprites (buildSkeleton d) j

/-- C1.  Export/import round-trip: rebuilding from the exported data of a
built track reproduces the built track exactly — the same piece list and
the same segments, including each segment's sprite list in order.
(Random `id` strings, which the builder never reads, are outside the
model.) -/
theorem buildFromData_getTrackData_roundTrip (X : TrackData) :
    buildFromData (getTrackData (buildFromData X)) = buildFromData X := by
  have hskel2 :
      buildSkeleton (getTrackData (buildFromData X)) = buildSkeleton X := rfl
  have hsegs :
      (buildFromData (getTrackData (buildFromData X))).segments
        = (buildFromData X).segments := by
    apply List.ext_getElem?
    intro j
    have h1 := buildFromData_segments_getElem? X j
    have h2 := buildFromData_segments_getElem? (getTrackData (buildFromData X)) j
    rw [hskel2] at h2
    have h3 :
        attachedTo j (getTrackData (buildFromData X)).sprites
          = (((buildFromData X).segments[j]?).map Segment.sprites).getD [] := by
      have := attachedTo_exportSprites (buildFromData X).segments 0 j
      simpa [getTrackData] using this
    by_cases hj : j < (buildSkeleton X).length
    · obtain ⟨seg, hseg, hnil⟩ := buildSkeleton_sprites X j hj
      rw [h2, h3, h1, hseg]
      simp [hnil]
    · have hnone : (buildSkeleton X)[j]? = none := List.getElem?_eq_none (by omega)
      rw [h1, h2, hnone]
      simp
  show Track.mk _ _ _ _ _ = Track.mk _ _ _ _ _
  rw [Track.mk.injEq]
  refine ⟨?_, rfl, rfl, ?_, rfl⟩
  · simpa [buildFromData] using hsegs
  · show ((buildSkeleton (getTrackData (buildFromData X))).length : ℚ) * SEGMENT_LENGTH
        = ((buildSkeleton X).length : ℚ) * SEGMENT_LENGTH
    rw [hskel2]

/-- C9.  Tolerant sprite attachment: building from any `TrackData`
always completes (the builder is a total function), and segment `j` of
the result carries exactly the data sprites placed at index `j`, in data
order — sprites with an out-of-bounds `segmentIndex` (negative or past
the end) are silently skipped and appear on no segment. -/
theorem buildFromData_sprites_inBounds (d : TrackData) (j : ℕ)
    (h : j < (buildFromData d).segments.length) :
    ((buildFromData d).segments[j]?).map Segment.sprites
      = some (attachedTo j d.sprites) := by
  have hlen : j < (buildSkeleton d).length := by
    have := foldl_pushSprite_length d.sprites (buildSkeleton d)
    simp only [buildFromData] at h
    omega
  obtain ⟨seg, hseg, hnil⟩ := buildSkeleton_sprites d j hlen
  rw [buildFromData_segments_getElem? d j, hseg]
  simp [hnil]

unseal Rat.add Rat.mul Rat.inv Rat.sub in
/-- C9 witness: a six-segment track with two in-bounds sprites on
segment 2 and two out-of-bounds ones (index 10 and -3); segment 2 ends
up with exactly its two sprites, in data order. -/
theorem buildFromData_sprites_inBounds_witness :
    (2 < (buildFromData
        { pieces := [⟨.straight, 6, 0⟩]
          sprites := [⟨10, "bush1", 1⟩, ⟨2, "tree1", -(3/2)⟩, ⟨-3, "cactus", 1⟩,
                      ⟨2, "stump", 2⟩] }).segments.length)
    ∧ ((buildFromData
        { pieces := [⟨.straight, 6, 0⟩]
          sprites := [⟨10, "bush1", 1⟩, ⟨2, "tree1", -(3/2)⟩, ⟨-3, "cactus", 1⟩,
                      ⟨2, "stump", 2⟩] }).segments[2]?).map Segment.sprites
      = some [⟨"tree1", -(3/2)⟩, ⟨"stump", 2⟩] := by
  refine ⟨by decide, ?_⟩
  rw [buildFromData_sprites_inBounds _ 2 (by decide)]
  decide

/-- The elevation pass leaves every segment with
`p2.world.y - p1.world.y = hill` exactly. -/
theorem calcYFrom_hill :
    ∀ (y : ℚ) (ss : List Segment) (j : ℕ) (seg : Segment),
      (calcYFrom y ss)[j]? = some seg →
      seg.p2.world.y - seg.p1.world.y = seg.hill := by
  intro y ss
  induction ss generalizing y with
  | nil => intro j seg h; simp [calcYFrom] at h
  | cons s rest ih =>
      intro j seg h
      cases j with
      | zero =>
          simp only [calcYFrom, List.getElem?_cons_zero, Option.some.injEq] at h
          subst h
          ring
      | succ m =>
          simp only [calcYFrom, List.getElem?_cons_succ] at h
          exact ih (y + s.hill) m seg h

/-- Sprite decoration during procedural generation touches only sprite
lists: the geometric fields of every slot are preserved. -/
theorem addSpritesGo_fields :
    ∀ (ss : List Segment) (i : ℕ) (r : Rng) (j : ℕ),
      (((addSpritesGo i ss r).1)[j]?).map (fun s => (s.p1, s.p2, s.hill))
        = (ss[j]?).map (fun s => (s.p1, s.p2, s.hill)) := by
  intro ss
  induction ss with
  | nil => intro i r j; rfl
  | cons s rest ih =>
      intro i r j
      cases j with
      | zero => simp [addSpritesGo]
      | succ m => simp [addSpritesGo, ih]

theorem addSpritesGo_length :
    ∀ (ss : List Segment) (i : ℕ) (r : Rng),
      ((addSpritesGo i ss r).1).length = ss.length := by
  intro ss
  induction ss with
  | nil => intro i r; rfl
  | cons s rest ih => intro i r; simp [addSpritesGo, ih]

/-- The per-segment elevation consistency predicate of the claim. -/
def hillConsistent (s : Segment) : Prop :=
  s.p2.world.y - s.p1.world.y = s.hill

theorem hillConsistent_defaultSegment : hillConsistent defaultSegment := by
  simp [hillConsistent, defaultSegment, mkSegment, createScreenCoord]

theorem getD_hillConsistent (ss : List Segment)
    (h : ∀ (k : ℕ) (seg : Segment), ss[k]? = some seg → hillConsistent seg)
    (i : ℕ) : hillConsistent (ss.getD i defaultSegment) := by
  rw [List.getD_eq_getElem?_getD]
  cases hopt : ss[i]? with
  | none => simpa using hillConsistent_defaultSegment
  | some seg => simpa using h i seg hopt

theorem buildFromData_hillConsistent (d : TrackData) (k : ℕ) (seg : Segment)
    (h : (buildFromData d).segments[k]? = some seg) : hillConsistent seg := by
  rw [buildFromData_segments_getElem? d k] at h
  cases hopt : (buildSkeleton d)[k]? with
  | none => rw [hopt] at h; simp at h
  | some seg0 =>
      rw [hopt] at h
      simp only [Option.map_some', Option.some.injEq] at h
      have h0 : hillConsistent seg0 :=
        calcYFrom_hill 0 (mkSegments (buildSpecs d)) k seg0 hopt
      rw [← h]
      simpa [hillConsistent] using h0

theorem decorated_hillConsistent (specs : List SegSpec) (i0 : ℕ) (r : Rng)
    (k : ℕ) (seg : Segment)
    (h : ((addSpritesGo i0 (calculateYPositions (mkSegments specs)) r).1)[k]?
          = some seg) :
    hillConsistent seg := by
  have hf := addSpritesGo_fields (calculateYPositions (mkSegments specs)) i0 r k
  rw [h] at hf
  cases hopt : (calculateYPositions (mkSegments specs))[k]? with
  | none => rw [hopt] at hf; simp at hf
  | some seg0 =>
      rw [hopt] at hf
      simp only [Option.map_some', Option.some.injEq, Prod.mk.injEq] at hf
      have h0 : hillConsistent seg0 := calcYFrom_hill 0 (mkSegments specs) k seg0 hopt
      unfold hillConsistent at h0 ⊢
      rw [hf.1, hf.2.1, hf.2.2]
      exact h0

/-- Embeds `buildRandomTrack` is sprite decoration applied to an elevation-passed
emission, with `trackLength` computed from the pre-decoration store and
`segmentLength` the config constant (by unfolding the definition). -/
theorem buildRandomTrack_shape (r0 : Rng) :
    ∃ (specs : List SegSpec) (rr : Rng),
      (buildRandomTrack r0).segments
          = (addSpritesGo 0 (calculateYPositions (mkSegments specs)) rr).1
        ∧ (buildRandomTrack r0).trackLength
          = ((calculateYPositions (mkSegments specs)).length : ℚ) * SEGMENT_LENGTH
        ∧ (buildRandomTrack r0).segmentLength = SEGMENT_LENGTH :=
  ⟨_, _, rfl, rfl, rfl⟩

/-- C8.  Cumulative elevation round-trip: after every build operation
(data-driven or procedural), every segment satisfies
`p2.world.y - p1.world.y = hill` exactly (out-of-range lookups fall back
to the default segment, which satisfies it trivially). -/
theorem build_elevation_roundTrip (d : TrackData) (r : Rng) (i j : ℕ) :
    hillConsistent ((buildFromData d).segments.getD i defaultSegment)
      ∧ hillConsistent ((buildRandomTrack r).segments.getD j defaultSegment) := by
  constructor
  · exact getD_hillConsistent _ (buildFromData_hillConsistent d) i
  · obtain ⟨specs, rr, hEq, -, -⟩ := buildRandomTrack_shape r
    rw [hEq]
    apply getD_hillConsistent _ _ j
    intro k seg h
    exact decorated_hillConsistent specs 0 rr k seg h

/-- C7.  `trackLength = segments.length * segmentLength` holds after
both build operations, for every input data and every random stream. -/
theorem build_trackLength (d : TrackData) (r : Rng) :
    (buildFromData d).trackLength
        = ((buildFromData d).segments.length : ℚ) * (buildFromData d).segmentLength
      ∧ (buildRandomTrack r).trackLength
        = ((buildRandomTrack r).segments.length : ℚ) * (buildRandomTrack r).segmentLength := by
  constructor
  · show ((buildSkeleton d).length : ℚ) * SEGMENT_LENGTH
      = ((d.sprites.foldl pushSprite (buildSkeleton d)).length : ℚ) * SEGMENT_LENGTH
    rw [foldl_pushSprite_length]
  · obtain ⟨specs, rr, hEq, hLen, hSeg⟩ := buildRandomTrack_shape r
    rw [hEq, hLen, hSeg, addSpritesGo_length]

/-- Lookup inside the hold phase of an enter/hold/exit emission. -/
theorem envelope_getElem?_hold (e h x : ℕ) (fE : ℕ → SegSpec) (c : SegSpec)
    (fX : ℕ → SegSpec) (j : ℕ) (hj : j < h) :
    ((List.range e).map fE ++ (List.range h).map (fun _ => c)
        ++ (List.range x).map fX)[e + j]? = some c := by
  rw [List.getElem?_append, if_pos (by simp; omega), List.getElem?_append,
    if_neg (by simp)]
  simp only [List.length_map, List.length_range]
  rw [List.getElem?_map, List.getElem?_range (by omega : e + j - e < h)]
  rfl

/-- The last element of an enter/hold/exit emission with a non-empty
exit phase. -/
theorem envelope_getLast (e h x : ℕ) (fE : ℕ → SegSpec) (c : SegSpec)
    (fX : ℕ → SegSpec) (hx : 1 ≤ x) :
    ((List.range e).map fE ++ (List.range h).map (fun _ => c)
        ++ (List.range x).map fX).getLast? = some (fX (x - 1)) := by
  rw [List.getLast?_append]
  have : ((List.range x).map fX).getLast? = some (fX (x - 1)) := by
    rw [List.getLast?_eq_getElem?]
    simp [List.getElem?_map, List.getElem?_range (by omega : x - 1 < x)]
  rw [this]
  rfl

/-- C2 (amended).  For every curve or hill piece with `length ≥ 4`,
every hold-phase segment's contribution equals the piece's value
exactly, and the last exit-phase segment's contribution is
`value / exitCount` — the linear ramp only reaches 0 one segment past
the piece, not on its last segment. -/
theorem envelope_hold_and_exit (count : ℤ) (v : ℚ) (j : ℕ)
    (hc : 4 ≤ count) (hj : j < (Int.fdiv count 2).toNat) :
    (addCurve count v)[(Int.fdiv count 4).toNat + j]? = some ⟨v, 0⟩
    ∧ (addHill count v)[(Int.fdiv count 4).toNat + j]? = some ⟨0, v⟩
    ∧ (addCurve count v).getLast?
        = some ⟨v / ((count - Int.fdiv count 4 - Int.fdiv count 2 : ℤ) : ℚ), 0⟩
    ∧ (addHill count v).getLast?
        = some ⟨0, v / ((count - Int.fdiv count 4 - Int.fdiv count 2 : ℤ) : ℚ)⟩ := by
  have he4 := Int.fdiv_eq_ediv count (by norm_num : (0:ℤ) ≤ 4)
  have he2 := Int.fdiv_eq_ediv count (by norm_num : (0:ℤ) ≤ 2)
  have hxpos : 1 ≤ count - Int.fdiv count 4 - Int.fdiv count 2 := by
    rw [he4, he2]; omega
  have hxto : 1 ≤ (count - Int.fdiv count 4 - Int.fdiv count 2).toNat := by
    omega
  have hcast : (((count - Int.fdiv count 4 - Int.fdiv count 2).toNat : ℕ) : ℚ)
      = ((count - Int.fdiv count 4 - Int.fdiv count 2 : ℤ) : ℚ) := by
    exact_mod_cast Int.toNat_of_nonneg (by omega)
  have hxne : ((count - Int.fdiv count 4 - Int.fdiv count 2 : ℤ) : ℚ) ≠ 0 := by
    have : (1 : ℚ) ≤ ((count - Int.fdiv count 4 - Int.fdiv count 2 : ℤ) : ℚ) := by
      exact_mod_cast hxpos
    linarith
  have hlast :
      ∀ w : ℚ, w * (1 - (((count - Int.fdiv count 4 - Int.fdiv count 2).toNat - 1 : ℕ) : ℚ)
            / ((count - Int.fdiv count 4 - Int.fdiv count 2 : ℤ) : ℚ))
        = w / ((count - Int.fdiv count 4 - Int.fdiv count 2 : ℤ) : ℚ) := by
    intro w
    rw [Nat.cast_sub hxto, hcast]
    generalize hX : ((count - Int.fdiv count 4 - Int.fdiv count 2 : ℤ) : ℚ) = X at hxne ⊢
    field_simp
  refine ⟨?_, ?_, ?_, ?_⟩
  · exact envelope_getElem?_hold _ _ _ _ _ _ j hj
  · exact envelope_getElem?_hold _ _ _ _ _ _ j hj
  · rw [addCurve, envelope_getLast _ _ _ _ _ _ hxto]
    simp only [Nat.cast_one, hlast v]
  · rw [addHill, envelope_getLast _ _ _ _ _ _ hxto]
    simp only [Nat.cast_one, hlast v]

unseal Rat.add Rat.mul Rat.inv Rat.sub in
/-- C2 counterexample: for the curve piece of length 4 and value 8 the
last exit-phase segment's curvature contribution is 8 — the full piece
value, not 0 (no floating-point tolerance can bridge that gap). -/
theorem envelope_exit_counterexample :
    (4 : ℤ) ≤ 4 ∧ (addCurve 4 8).getLast? = some ⟨8, 0⟩ ∧ ¬((8 : ℚ) = 0) := by
  decide

unseal Rat.add Rat.mul Rat.inv Rat.sub in
/-- C2 witness: the amended claim applied at the spec's own scenario —
curve piece length 40, value 8, hold slot `j = 5`; the last exit segment
carries `8 / 10 = 0.8`. -/
theorem envelope_hold_and_exit_witness :
    ((4 : ℤ) ≤ 40 ∧ 5 < (Int.fdiv 40 2).toNat)
    ∧ ((addCurve 40 8)[(Int.fdiv 40 4).toNat + 5]? = some ⟨8, 0⟩
      ∧ (addHill 40 8)[(Int.fdiv 40 4).toNat + 5]? = some ⟨0, 8⟩
      ∧ (addCurve 40 8).getLast?
          = some ⟨8 / ((40 - Int.fdiv 40 4 - Int.fdiv 40 2 : ℤ) : ℚ), 0⟩
      ∧ (addHill 40 8).getLast?
          = some ⟨0, 8 / ((40 - Int.fdiv 40 4 - Int.fdiv 40 2 : ℤ) : ℚ)⟩) :=
  ⟨⟨by decide, by decide⟩, envelope_hold_and_exit 40 8 5 (by decide) (by decide)⟩

/-- C6.  Projection guard: whenever the camera-space depth
`world.z - cameraZ` is non-positive, `project` takes the guard branch —
`scale = 0`, `screen.y = viewport height`, `screen.x = 0`,
`screen.w = 0` — and the stored camera depth is exactly that
non-positive difference (the division branch is never entered, so no
division by a non-positive `camera.z` occurs). -/
theorem project_behind_camera (cfg : RendererCfg) (p : ScreenCoord)
    (cameraX cameraY cameraZ : ℚ) (h : p.world.z - cameraZ ≤ 0) :
    (project cfg p cameraX cameraY cameraZ).scale = 0
    ∧ (project cfg p cameraX cameraY cameraZ).screen.y = cfg.height
    ∧ (project cfg p cameraX cameraY cameraZ).screen.x = 0
    ∧ (project cfg p cameraX cameraY cameraZ).screen.w = 0
    ∧ (project cfg p cameraX cameraY cameraZ).camera.z = p.world.z - cameraZ := by
  unfold project
  rw [if_pos h]
  exact ⟨rfl, rfl, rfl, rfl, rfl⟩

unseal Rat.add Rat.mul Rat.inv Rat.sub in
/-- C6 witness: a point 100 units behind the camera plane, projected
with the default renderer configuration. -/
theorem project_behind_camera_witness :
    ((createScreenCoord 0).world.z - 100 ≤ 0)
    ∧ ((project {} (createScreenCoord 0) 0 0 100).scale = 0
      ∧ (project {} (createScreenCoord 0) 0 0 100).screen.y = RendererCfg.height {}
      ∧ (project {} (createScreenCoord 0) 0 0 100).screen.x = 0
      ∧ (project {} (createScreenCoord 0) 0 0 100).screen.w = 0
      ∧ (project {} (createScreenCoord 0) 0 0 100).camera.z
          = (createScreenCoord 0).world.z - 100) :=
  ⟨by decide, project_behind_camera {} (createScreenCoord 0) 0 0 100 (by decide)⟩

/-- Negating the dividend negates the truncated remainder. -/
theorem tmod_neg_arg (a b : ℤ) : Int.tmod (-a) b = -(Int.tmod a b) := by
  rw [Int.tmod_def, Int.tmod_def, Int.neg_tdiv]
  ring

/-- The truncated remainder lies strictly between `-b` and `b` for
positive `b`. -/
theorem tmod_bounds (a b : ℤ) (hb : 0 < b) :
    -b < Int.tmod a b ∧ Int.tmod a b < b := by
  refine ⟨?_, Int.tmod_lt_of_pos a hb⟩
  rcases le_or_lt 0 a with ha | ha
  · have := Int.tmod_nonneg b ha
    omega
  · have h1 : Int.tmod a b = -(Int.tmod (-a) b) := by
      rw [tmod_neg_arg, neg_neg]
    have h2 := Int.tmod_lt_of_pos (-a) hb
    have h3 := Int.tmod_nonneg (a := -a) b (by omega)
    omega

theorem getSegmentIndex_bounds (t : Track) (z : ℚ) (h : t.segments ≠ []) :
    0 ≤ getSegmentIndex t z ∧ getSegmentIndex t z < (t.segments.length : ℤ) := by
  have hlen : 0 < (t.segments.length : ℤ) := by
    have := List.length_pos.mpr h
    omega
  unfold getSegmentIndex
  have hb := tmod_bounds ⌊z / t.segmentLength⌋ (t.segments.length : ℤ) hlen
  by_cases hc : Int.tmod ⌊z / t.segmentLength⌋ (t.segments.length : ℤ) < 0 <;>
    simp only [hc, if_true, if_false] <;> omega

/-- C10.  `getSegment` on a non-empty store always returns an in-bounds
element: the floor-divide/modulo index, shifted up by the store size
when negative, lands in `[0, segments.length)` for every rational `z`
(negative, huge, or otherwise). -/
theorem getSegment_inBounds (t : Track) (z : ℚ) (h : t.segments ≠ []) :
    ∃ (i : ℕ) (hi : i < t.segments.length),
      getSegment t z = t.segments.get ⟨i, hi⟩
        ∧ (i : ℤ) = getSegmentIndex t z := by
  obtain ⟨h0, hlt⟩ := getSegmentIndex_bounds t z h
  have hi : (getSegmentIndex t z).toNat < t.segments.length := by omega
  refine ⟨(getSegmentIndex t z).toNat, hi, ?_, Int.toNat_of_nonneg h0⟩
  unfold getSegment
  rw [List.getD_eq_getElem _ _ hi]
  simp

unseal Rat.add Rat.mul Rat.inv Rat.sub in
/-- C10 witness: looking up `z = -250` (negative, past the wrap point)
on the concrete six-segment track stays in bounds. -/
theorem getSegment_inBounds_witness :
    trackStraight6.segments ≠ []
    ∧ ∃ (i : ℕ) (hi : i < trackStraight6.segments.length),
        getSegment trackStraight6 (-250) = trackStraight6.segments.get ⟨i, hi⟩
          ∧ (i : ℤ) = getSegmentIndex trackStraight6 (-250) :=
  ⟨by decide, getSegment_inBounds trackStraight6 (-250) (by decide)⟩

/-- C5.  After one `update` tick the lateral position is clamped into
the track bounds `[-2, 2]`, whatever the steering displacement and the
centrifugal force of the tick were.  (Hypotheses: the starting state is
well-formed — the track store is non-empty, as every built track is, and
`maxSpeed` is positive so `speed / maxSpeed` matches the JS number
semantics.) -/
theorem update_x_bounds (g : GameState) (inp : InputState) (dt : ℚ)
    (hx : -2 ≤ g.player.x ∧ g.player.x ≤ 2)
    (hdt : 0 ≤ dt ∧ dt ≤ 1 / 10)
    (htrack : g.track.segments ≠ [])
    (hms : 0 < g.player.maxSpeed) :
    -2 ≤ (update g inp dt).player.x ∧ (update g inp dt).player.x ≤ 2 := by
  have hx3 : (update g inp dt).player.x = updatedX g inp dt := rfl
  rw [hx3]
  unfold updatedX
  constructor
  · exact le_max_left _ _
  · exact max_le (by norm_num) (min_le_left _ _)

unseal Rat.add Rat.mul Rat.inv Rat.sub in
/-- C5 witness: one tick on the six-segment track from the constructor
state, steering right at speed 300 with `dt = 1/60`. -/
theorem update_x_bounds_witness :
    ((-2 ≤ (0 : ℚ) ∧ (0 : ℚ) ≤ 2) ∧ (0 ≤ (1/60 : ℚ) ∧ (1/60 : ℚ) ≤ 1 / 10)
      ∧ trackStraight6.segments ≠ [] ∧ (0 : ℚ) < 600)
    ∧ (-2 ≤ (update
          { track := trackStraight6, position := 0
            player := { x := 0, speed := 300, maxSpeed := 600, accel := 2,
                        decel := 1/2, offRoadDecel := 1, offRoadMaxSpeed := 200 }
            playerY := 0 }
          { left := false, right := true, up := true, down := false }
          (1/60)).player.x
      ∧ (update
          { track := trackStraight6, position := 0
            player := { x := 0, speed := 300, maxSpeed := 600, accel := 2,
                        decel := 1/2, offRoadDecel := 1, offRoadMaxSpeed := 200 }
            playerY := 0 }
          { left := false, right := true, up := true, down := false }
          (1/60)).player.x ≤ 2) :=
  ⟨⟨⟨by norm_num, by norm_num⟩, ⟨by norm_num, by norm_num⟩, by decide, by norm_num⟩,
    update_x_bounds _ _ _ ⟨by norm_num, by norm_num⟩ ⟨by norm_num, by norm_num⟩
      (by decide) (by norm_num)⟩

theorem offRoadFactor_bounds (g : GameState) (inp : InputState) (dt : ℚ) :
    0 ≤ offRoadFactorOf g inp dt ∧ offRoadFactorOf g inp dt ≤ 1 := by
  unfold offRoadFactorOf offRoadAmountOf
  constructor
  · exact le_min (le_max_left _ _) (by norm_num)
  · exact min_le_right _ _

theorem effMaxSpeed_bounds (g : GameState) (inp : InputState) (dt : ℚ)
    (hor0 : 0 ≤ g.player.offRoadMaxSpeed)
    (hor : g.player.offRoadMaxSpeed ≤ g.player.maxSpeed) :
    0 ≤ effMaxSpeed g inp dt ∧ effMaxSpeed g inp dt ≤ g.player.maxSpeed := by
  obtain ⟨hf0, hf1⟩ := offRoadFactor_bounds g inp dt
  unfold effMaxSpeed
  split
  · constructor
    · nlinarith
    · nlinarith
  · constructor
    · linarith
    · exact le_refl _

/-- C4.  After one `update` tick the speed lies in `[0, m]` where `m`
is the tick's effective maximum (interpolated down toward
`offRoadMaxSpeed` by `offRoadFactor` when the post-steering `x` is
off-road, plain `maxSpeed` otherwise), and hence in `[0, maxSpeed]`.
(Hypotheses: speed starts in range, `dt ∈ [0, 0.1]`, and the vehicle
state is well-formed: `0 < maxSpeed`, `0 ≤ offRoadMaxSpeed ≤ maxSpeed`.) -/
theorem update_speed_bounds (g : GameState) (inp : InputState) (dt : ℚ)
    (hs : 0 ≤ g.player.speed ∧ g.player.speed ≤ g.player.maxSpeed)
    (hdt : 0 ≤ dt ∧ dt ≤ 1 / 10)
    (hms : 0 < g.player.maxSpeed)
    (hor0 : 0 ≤ g.player.offRoadMaxSpeed)
    (hor : g.player.offRoadMaxSpeed ≤ g.player.maxSpeed) :
    0 ≤ (update g inp dt).player.speed
    ∧ (update g inp dt).player.speed ≤ effMaxSpeed g inp dt
    ∧ (update g inp dt).player.speed ≤ g.player.maxSpeed := by
  obtain ⟨heff0, heffM⟩ := effMaxSpeed_bounds g inp dt hor0 hor
  have hsp : (update g inp dt).player.speed = updatedSpeed g inp dt := rfl
  rw [hsp]
  unfold updatedSpeed
  refine ⟨le_max_left _ _, ?_, ?_⟩
  · exact max_le heff0 (min_le_right _ _)
  · exact le_trans (max_le heff0 (min_le_right _ _)) heffM

unseal Rat.add Rat.mul Rat.inv Rat.sub in
/-- C4 witness: one accelerating tick from speed 590 on the six-segment
track with the constructor's vehicle parameters. -/
theorem update_speed_bounds_witness :
    ((0 ≤ (590:ℚ) ∧ (590:ℚ) ≤ 600) ∧ (0 ≤ (1/60:ℚ) ∧ (1/60:ℚ) ≤ 1/10)
      ∧ (0:ℚ) < 600 ∧ (0:ℚ) ≤ 200 ∧ (200:ℚ) ≤ 600)
    ∧ (0 ≤ (update
          { track := trackStraight6, position := 0
            player := { x := 0, speed := 590, maxSpeed := 600, accel := 2,
                        decel := 1/2, offRoadDecel := 1, offRoadMaxSpeed := 200 }
            playerY := 0 }
          { left := false, right := false, up := true, down := false }
          (1/60)).player.speed
      ∧ (update
          { track := trackStraight6, position := 0
            player := { x := 0, speed := 590, maxSpeed := 600, accel := 2,
                        decel := 1/2, offRoadDecel := 1, offRoadMaxSpeed := 200 }
            playerY := 0 }
          { left := false, right := false, up := true, down := false }
          (1/60)).player.speed
        ≤ effMaxSpeed
            { track := trackStraight6, position := 0
              player := { x := 0, speed := 590, maxSpeed := 600, accel := 2,
                          decel := 1/2, offRoadDecel := 1, offRoadMaxSpeed := 200 }
              playerY := 0 }
            { left := false, right := false, up := true, down := false }
            (1/60)
      ∧ (update
          { track := trackStraight6, position := 0
            player := { x := 0, speed := 590, maxSpeed := 600, accel := 2,
                        decel := 1/2, offRoadDecel := 1, offRoadMaxSpeed := 200 }
            playerY := 0 }
          { left := false, right := false, up := true, down := false }
          (1/60)).player.speed ≤ 600) :=
  ⟨⟨⟨by norm_num, by norm_num⟩, ⟨by norm_num, by norm_num⟩,
      by norm_num, by norm_num, by norm_num⟩,
    update_speed_bounds _ _ _ ⟨by norm_num, by norm_num⟩
      ⟨by norm_num, by norm_num⟩ (by norm_num) (by norm_num) (by norm_num)⟩

/-- C3 (amended).  The occlusion horizon is non-increasing over a road
render pass *provided* every drawn segment's near-edge screen Y does not
exceed the current horizon.  The source updates `maxY` to `p1.screen.y`
after a draw while only guarding `p2.screen.y < maxY`, so without that
proviso the horizon can rise (see the counterexample). -/
theorem maxy_monotone_of_clamped (pass : RenderPass)
    (h : ∀ k, k < pass.cfg.drawDistance →
          drawsAt pass k (renderStateAt pass k) →
          (p1At pass k (renderStateAt pass k)).screen.y ≤ maxyAfter pass k)
    (m n : ℕ) (hmn : m ≤ n) (hn : n ≤ pass.cfg.drawDistance) :
    maxyAfter pass n ≤ maxyAfter pass m := by
  have step : ∀ k, k < pass.cfg.drawDistance →
      maxyAfter pass (k + 1) ≤ maxyAfter pass k := by
    intro k hk
    have hstep : maxyAfter pass (k + 1)
        = if drawsAt pass k (renderStateAt pass k)
          then (p1At pass k (renderStateAt pass k)).screen.y
          else maxyAfter pass k := rfl
    rw [hstep]
    split
    · next hd => exact h k hk hd
    · exact le_refl _
  have mono : ∀ (d m0 : ℕ), m0 + d ≤ pass.cfg.drawDistance →
      maxyAfter pass (m0 + d) ≤ maxyAfter pass m0 := by
    intro d
    induction d with
    | zero => intro m0 _; exact le_refl _
    | succ e ih =>
        intro m0 hle
        have h1 : maxyAfter pass (m0 + e + 1) ≤ maxyAfter pass (m0 + e) :=
          step (m0 + e) (by omega)
        have h2 := ih m0 (by omega)
        calc maxyAfter pass (m0 + (e + 1)) = maxyAfter pass (m0 + e + 1) := by
              rw [Nat.add_succ]
      _ ≤ maxyAfter pass (m0 + e) := h1
      _ ≤ maxyAfter pass m0 := h2
  have hrepr : n = m + (n - m) := by omega
  rw [hrepr]
  exact mono (n - m) m (by omega)

unseal Rat.add Rat.mul Rat.inv Rat.sub in
/-- C3 counterexample: on the flat six-segment track rendered from the
start line (default configuration, `maxY` starting at 480), the fifth
loop iteration draws a segment whose near edge projects to scanline 492,
raising `maxY` from 480 to 492 — the horizon sequence is not
non-increasing. -/
theorem maxy_not_monotone_counterexample :
    4 ≤ 5 ∧ 5 ≤ passFlat.cfg.drawDistance
      ∧ maxyAfter passFlat 4 < maxyAfter passFlat 5 := by
  refine ⟨by norm_num, by decide, by decide⟩

unseal Rat.add Rat.mul Rat.inv Rat.sub in
/-- C3 witness: a pass in which no segment is drawn (camera below the
road), so the proviso holds vacuously and the horizon is monotone over
the whole loop. -/
theorem maxy_monotone_of_clamped_witness :
    (∀ k, k < passDown.cfg.drawDistance →
        drawsAt passDown k (renderStateAt passDown k) →
        (p1At passDown k (renderStateAt passDown k)).screen.y ≤ maxyAfter passDown k)
    ∧ (0 ≤ 6 ∧ 6 ≤ passDown.cfg.drawDistance)
    ∧ maxyAfter passDown 6 ≤ maxyAfter passDown 0 :=
  ⟨by decide, ⟨by norm_num, by decide⟩,
    maxy_monotone_of_clamped passDown (by decide) 0 6 (by norm_num) (by decide)⟩

end Racer
